import Mathlib

/-!
Shallow embedding of the pianotrap recording-session controller
(src/pianotrap.go, current revision: globals `recording`, `ffmpegCmd`,
`currentStation`, `currentFileName`, `remainingTime`, `totalDuration`,
`timeThreshold = 10s`, the event loop inside `RunPianotrap`, `stopRecording`,
`sanitizeFileName`, `parseTime`), together with the silence/stall watchdog of
`saveSong` from the revision in src/unnamed/part_003.

Conventions of the embedding:
* The duration parse (`parseTime`) is modelled exactly as Go computes it:
  `time.Duration` is int64 nanoseconds, `time.ParseDuration` rejects a field
  whose value exceeds `2^63 / unit`, and the `mins + secs` sum is wrapping
  int64 addition.  The session machine stores its progress snapshot in whole
  seconds (`Nat`): every in-range countdown value is a whole nonnegative
  number of seconds and `timeThreshold` is 10 whole seconds, so all the
  comparisons the machine performs on stored values are preserved by the
  seconds view.
* File sizes (`int64` from `os.Stat`) are nonnegative and modelled as `Nat`.
* The external side effects of the controller (signalling/killing the ffmpeg
  process, removing a file, spawning the encoder, creating a station
  directory) are recorded as an explicit `Action` trace.
* Encoder process handles (`*exec.Cmd`) are modelled by the pid; a fresh pid
  is drawn from a counter in the machine state.
-/

namespace Pianotrap

/-- Configuration: the save directory, plus `time.Now().Year()` rendered with
`%d` (a fixed string for a run of the program), which the controller embeds
into the output file name. -/
structure Config where
  saveDir : String
  year : String
deriving Repr, DecidableEq

/-- `timeThreshold = 10 * time.Second` (src/pianotrap.go line 31), in seconds. -/
def timeThreshold : Nat := 10

/-- The character class of Go regex `[<>:"/\\|?*]` in `sanitizeFileName`. -/
def badChar (c : Char) : Bool :=
  c == '<' || c == '>' || c == ':' || c == '"' || c == '/' ||
  c == '\\' || c == '|' || c == '?' || c == '*'

/-- `sanitizeFileName` (src/pianotrap.go lines 524-527): every character of
the class `[<>:"/\\|?*]` is replaced by an underscore.  (This revision does
not trim whitespace.) -/
def sanitizeFileName (s : String) : String :=
  String.mk (s.data.map fun c => if badChar c then '_' else c)

/-- `filepath.Join`, restricted to the use here: empty components are
dropped and the rest are joined with a slash.  (`filepath.Clean`, which also
collapses repeated slashes inside a single component, is not modelled; the
components the controller joins are slash-free by sanitization.) -/
def joinPath : List String → String
  | [] => ""
  | p :: rest =>
    let r := joinPath rest
    if p = "" then r else if r = "" then p else p ++ "/" ++ r

/-- The composite track identity `fmt.Sprintf("%s by %s", songTitle, artist)`
(src/pianotrap.go line 283). -/
def songId (title artist : String) : String :=
  title ++ " by " ++ artist

/-- Value of a decimal digit string. -/
def digitsVal (ds : List Char) : Nat :=
  ds.foldl (fun acc c => 10 * acc + (c.toNat - 48)) 0

/-- `strings.Split(s, ":")` on the character list of `s`. -/
def splitOnColon : List Char → List (List Char)
  | [] => [[]]
  | c :: rest =>
    if c = ':' then [] :: splitOnColon rest
    else
      match splitOnColon rest with
      | [] => [[c]]
      | h :: t => (c :: h) :: t

/-- `1 << 63`, the bound of `time.ParseDuration`'s overflow checks. -/
def int64Half : Nat := 9223372036854775808

/-- `uint64(time.Second)`: nanoseconds per second. -/
def nsPerSecond : Nat := 1000000000

/-- `uint64(time.Minute)`: nanoseconds per minute. -/
def nsPerMinute : Nat := 60000000000

/-- `time.ParseDuration(field ++ unit)` on the inputs this program passes to
it: a nonempty plain decimal-digit field (the countdown regex only captures
digit runs) and a fixed unit.  For such inputs `ParseDuration` succeeds
exactly when the field's value is at most `(1 << 63) / unit` (the per-unit
overflow check `v > 1<<63/unit`; `leadingInt`'s own overflow checks fire only
beyond that bound, since every prefix of an in-range value is in range), and
returns `value * unit` nanoseconds.  The final `d > 1<<63 - 1` check never
fires here: neither unit divides `2^63`, so an in-range product is strictly
below `2^63`. -/
def parseGoDuration (unit : Nat) (d : List Char) : Option Nat :=
  if d ≠ [] ∧ d.all Char.isDigit ∧ digitsVal d ≤ int64Half / unit then
    some (digitsVal d * unit)
  else none

/-- The two's-complement `int64` value of a nonnegative nanosecond sum, as
Go's defined-to-wrap signed addition computes it.  (The largest sum `parseTime`
can form is below `2^64`, so one reduction step suffices.) -/
def wrapInt64 (n : Nat) : Int :=
  (((n + 2 ^ 63) % 2 ^ 64 : Nat) : Int) - 2 ^ 63

/-- `parseTime` (src/pianotrap.go lines 529-543): split on `":"`, require
exactly two fields, parse `parts[0] ++ "m"` and `parts[1] ++ "s"` with
`time.ParseDuration` (either error aborts), and return the int64 sum
`mins + secs` in nanoseconds. -/
def parseTime (s : String) : Option Int :=
  match splitOnColon s.data with
  | [a, b] =>
    match parseGoDuration nsPerMinute a, parseGoDuration nsPerSecond b with
    | some m, some sec => some (wrapInt64 (m + sec))
    | _, _ => none
  | _ => none

/-!
## The countdown regex

`countdownRe = #\s+-(?:(\d+):)?(\d+):(\d+)/(\d+):(\d+)` (src/pianotrap.go
line 323), with Go (leftmost-first) match semantics.  For this pattern a
backtracking search is equivalent to a deterministic maximal-munch matcher:
every `\d+` and the `\s+` are followed by a required character (`:`, `/`,
`-`) that can never belong to the repeated class, so shortening a greedy run
during backtracking always fails.  The optional hour group is tried
present-first, as a leftmost-first engine does.
-/

/-- Go regex `\s`: the class `[\t\n\f\r ]`. -/
def isGoSpace (c : Char) : Bool :=
  c == ' ' || c == '\t' || c == '\n' || c == '\x0c' || c == '\r'

/-- The submatches `matches[1]`..`matches[5]` of `countdownRe`; `m1` is the
optional hour group. -/
structure CountdownGroups where
  m1 : Option (List Char)
  m2 : List Char
  m3 : List Char
  m4 : List Char
  m5 : List Char
deriving Repr, DecidableEq

/-- Consume one expected character. -/
def expectChar (c : Char) : List Char → Option (List Char)
  | [] => none
  | x :: rest => if x = c then some rest else none

/-- Consume a maximal nonempty digit run (`\d+`). -/
def takeDigits1 (cs : List Char) : Option (List Char × List Char) :=
  let d := cs.takeWhile Char.isDigit
  if d = [] then none else some (d, cs.dropWhile Char.isDigit)

/-- Alternative with the optional hour group present:
`(\d+):(\d+):(\d+)/(\d+):(\d+)`. -/
def matchFiveFields (cs : List Char) : Option CountdownGroups :=
  (takeDigits1 cs).bind fun p1 =>
  (expectChar ':' p1.2).bind fun r2 =>
  (takeDigits1 r2).bind fun p2 =>
  (expectChar ':' p2.2).bind fun r4 =>
  (takeDigits1 r4).bind fun p3 =>
  (expectChar '/' p3.2).bind fun r6 =>
  (takeDigits1 r6).bind fun p4 =>
  (expectChar ':' p4.2).bind fun r8 =>
  (takeDigits1 r8).bind fun p5 =>
  some ⟨some p1.1, p2.1, p3.1, p4.1, p5.1⟩

/-- Alternative with the optional hour group absent:
`(\d+):(\d+)/(\d+):(\d+)`. -/
def matchFourFields (cs : List Char) : Option CountdownGroups :=
  (takeDigits1 cs).bind fun p1 =>
  (expectChar ':' p1.2).bind fun r2 =>
  (takeDigits1 r2).bind fun p2 =>
  (expectChar '/' p2.2).bind fun r4 =>
  (takeDigits1 r4).bind fun p3 =>
  (expectChar ':' p3.2).bind fun r6 =>
  (takeDigits1 r6).bind fun p4 =>
  some ⟨none, p1.1, p2.1, p3.1, p4.1⟩

/-- Attempt the whole pattern anchored at the head of `cs`:
`#`, then `\s+`, then `-`, then the time fields (hour-present tried first). -/
def matchCountdownAt (cs : List Char) : Option CountdownGroups :=
  match expectChar '#' cs with
  | none => none
  | some r1 =>
    if r1.takeWhile isGoSpace = [] then none
    else
      match expectChar '-' (r1.dropWhile isGoSpace) with
      | none => none
      | some r2 => (matchFiveFields r2).orElse fun _ => matchFourFields r2

/-- `countdownRe.FindStringSubmatch`: the leftmost match in the chunk. -/
def findCountdown : List Char → Option CountdownGroups
  | [] => none
  | c :: rest =>
    match matchCountdownAt (c :: rest) with
    | some g => some g
    | none => findCountdown rest

/-- The countdown branch of the event loop (src/pianotrap.go lines 323-339):
on a regex match, build `remainingStr` as `matches[1]:matches[2]` when the
hour group is present and `matches[2]:matches[3]` otherwise, build `totalStr`
as `matches[4]:matches[5]`, and parse both with `parseTime`; a parse failure
(including a `ParseDuration` overflow error) produces no tick (`continue`).
Values are int64 nanoseconds. -/
def countdownTick (line : String) : Option (Int × Int) :=
  match findCountdown line.data with
  | none => none
  | some g =>
    let remainingStr : String :=
      match g.m1 with
      | some h => String.mk (h ++ ':' :: g.m2)
      | none => String.mk (g.m2 ++ ':' :: g.m3)
    let totalStr : String := String.mk (g.m4 ++ ':' :: g.m5)
    match parseTime remainingStr, parseTime totalStr with
    | some r, some t => some (r, t)
    | _, _ => none

/-!
## Classified events and the session state machine

The reader goroutine of `RunPianotrap` (src/pianotrap.go lines 232-359)
classifies each ANSI-stripped output chunk with the song, station, countdown
and interruption patterns, and reacts to each match.  An `Event` is one such
classified match; `step` is the reaction of the controller to one event,
translated branch for branch from the loop body.
-/

/-- A classified playback event (spec §4.2). `progressTick` carries the two
countdown durations in whole seconds — the machine-level view of the stored
`time.Duration`s; `countdownTick` yields the int64 nanosecond values, which
for in-range ticks are whole numbers of seconds. -/
inductive Event where
  | trackAnnounced (title artist album : String)
  | stationChanged (name : String)
  | progressTick (remaining total : Nat)
  | playbackInterrupted
deriving Repr, DecidableEq

/-- The shared mutable state of the controller: the globals of
src/pianotrap.go plus the reader goroutine's `lastSong` local, plus a pid
counter standing in for fresh `*exec.Cmd` handles. -/
structure MachineState where
  recording : Bool
  ffmpeg : Option Nat
  currentStation : String
  currentFileName : String
  remainingTime : Nat
  totalDuration : Nat
  lastSong : String
  nextPid : Nat
deriving Repr, DecidableEq

/-- State at program start: all globals zeroed. -/
def initState : MachineState :=
  { recording := false, ffmpeg := none, currentStation := "",
    currentFileName := "", remainingTime := 0, totalDuration := 0,
    lastSong := "", nextPid := 1 }

/-- External side effects performed by the controller, in program order. -/
inductive Action where
  /-- `ffmpegCmd.Process.Signal(syscall.SIGTERM)` -/
  | sigterm (pid : Nat)
  /-- `ffmpegCmd.Process.Kill()` -/
  | kill (pid : Nat)
  /-- `os.Remove(currentFileName)` -/
  | removeFile (path : String)
  /-- completion of `stopRecording` for an active session: the process has
  been signalled, killed and waited for (bounded), and the handle cleared -/
  | stopped (pid : Nat)
  /-- `go saveSong(...)`: a new encoder process writing `path` -/
  | spawnEncoder (path : String) (pid : Nat)
  /-- `os.MkdirAll(stationDir, 0755)` -/
  | mkdirStation (path : String)
deriving Repr, DecidableEq

/-- `stopRecording` (src/pianotrap.go lines 390-430).  With an active handle:
SIGTERM, kill, bounded wait, then `os.Remove` when `deleteFile` is set and a
file name is recorded, then the handle is cleared.  With no handle only the
log line runs.  In both cases the tail of the function resets `recording`,
`remainingTime` and `totalDuration`. -/
def stopRecording (deleteFile : Bool) (s : MachineState) :
    MachineState × List Action :=
  match s.ffmpeg with
  | some pid =>
    ({ s with ffmpeg := none, recording := false,
              remainingTime := 0, totalDuration := 0 },
     [Action.sigterm pid, Action.kill pid] ++
       (if deleteFile ∧ s.currentFileName ≠ "" then
          [Action.removeFile s.currentFileName] else []) ++
       [Action.stopped pid])
  | none =>
    ({ s with recording := false, remainingTime := 0, totalDuration := 0 },
     [])

/-- One iteration of the classified branches of the reader loop
(src/pianotrap.go lines 278-356), for a chunk that matched exactly one
pattern. -/
def step (cfg : Config) (s : MachineState) : Event → MachineState × List Action
  | Event.trackAnnounced title artist album =>
    -- lines 279-304
    if songId title artist ≠ s.lastSong then
      let deleteFile := s.recording && decide (0 < s.totalDuration) &&
        decide (timeThreshold < s.remainingTime)
      let stoppedRun := stopRecording deleteFile s
      let s1 := stoppedRun.1
      let station :=
        if s1.currentStation = "" then "Unknown Station" else s1.currentStation
      let fileName := joinPath [cfg.saveDir, station,
        sanitizeFileName (title ++ " - " ++ artist ++ " - " ++ album ++
          " (" ++ cfg.year ++ ").mp3")]
      ({ s1 with currentStation := station, currentFileName := fileName,
                 recording := true, ffmpeg := some s1.nextPid,
                 nextPid := s1.nextPid + 1, lastSong := songId title artist },
       stoppedRun.2 ++ [Action.spawnEncoder fileName s1.nextPid])
    else (s, [])
  | Event.stationChanged name =>
    -- lines 306-321
    let newStation := sanitizeFileName name
    if newStation ≠ s.currentStation then
      let stoppedRun := stopRecording true s
      ({ stoppedRun.1 with currentStation := newStation },
       stoppedRun.2 ++ [Action.mkdirStation (joinPath [cfg.saveDir, newStation])])
    else (s, [])
  | Event.progressTick remaining total =>
    -- lines 340-349 (the values were produced by `countdownTick`)
    let s1 := { s with remainingTime := remaining, totalDuration := total }
    if remaining = 0 ∧ s1.recording then stopRecording false s1
    else (s1, [])
  | Event.playbackInterrupted =>
    -- lines 352-355
    let stoppedRun := stopRecording true s
    ({ stoppedRun.1 with lastSong := "" }, stoppedRun.2)

/-- Process a whole event sequence, accumulating the action trace. -/
def run (cfg : Config) : MachineState → List Event → MachineState × List Action
  | s, [] => (s, [])
  | s, e :: es =>
    let r1 := step cfg s e
    let r2 := run cfg r1.1 es
    (r2.1, r1.2 ++ r2.2)

/-!
## Session-exclusivity checker

`traceActive` walks an action trace keeping the "is a session active" flag:
a `spawnEncoder` is legal only while no session is active and a `stopped` is
the completion of a stop of an active session.  `none` means the trace
violated the at-most-one-active-session discipline.
-/

/-- Effect of one action on the active-session flag; `none` = violation. -/
def actGuard (active : Bool) : Action → Option Bool
  | Action.spawnEncoder _ _ => if active then none else some true
  | Action.stopped _ => if active then some false else none
  | _ => some active

/-- Walk a trace with `actGuard`; returns the final flag, or `none` on a
violation (a start while a session is active, or before a prior stop has
completed). -/
def traceActive : Bool → List Action → Option Bool
  | a, [] => some a
  | a, x :: rest =>
    match actGuard a x with
    | none => none
    | some b => traceActive b rest

/-- A trace respects the at-most-one-active-session discipline, starting from
no active session. -/
def checkAtMostOne (l : List Action) : Bool :=
  (traceActive false l).isSome

/-!
## The silence/stall watchdog

`saveSong`'s watchdog goroutine (src/unnamed/part_003 lines 464-499): a
ticker fires every `silenceThreshold`; on each tick the goroutine exits when
its command handle is stale or recording has stopped (`live = false`), skips
the sample during the first `minRecordTime` after start (`pastGrace = false`),
and otherwise stats the output file.  On a stat success it compares the size
with the last sample: an unchanged size above `1024*50` bytes increments
`silenceCount`, and when the count reaches 2 the recording is stopped with
deletion; a changed (or small) size resets the count.  A stat error skips the
sample entirely.
-/

/-- `minRecordTime = 30 * time.Second`, the watchdog grace period. -/
def minRecordTime : Nat := 30

/-- `1024*50`: the minimum size below which a stall is never declared. -/
def minStallSize : Nat := 1024 * 50

/-- One watchdog tick, as observed by the goroutine: whether the session is
still this goroutine's live session, whether the grace period has elapsed
since `startTime`, and the `os.Stat` file size (`none` = stat error). -/
structure WatchSample where
  live : Bool
  pastGrace : Bool
  statSize : Option Nat
deriving Repr, DecidableEq

/-- The watchdog's loop state: `lastSize` and `silenceCount`. -/
structure WatchState where
  lastSize : Nat
  silenceCount : Nat
deriving Repr, DecidableEq

/-- Run the watchdog over a sequence of ticks; `some smp` means the watchdog
called `stopRecording(true)` at sample `smp`, `none` that it never stopped
the session within these ticks. -/
def silenceWatchdog (st : WatchState) : List WatchSample → Option WatchSample
  | [] => none
  | smp :: rest =>
    if smp.live = false then none
    else if smp.pastGrace = false then silenceWatchdog st rest
    else
      match smp.statSize with
      | none => silenceWatchdog st rest
      | some cur =>
        if cur = st.lastSize ∧ minStallSize < cur then
          if 2 ≤ st.silenceCount + 1 then some smp
          else silenceWatchdog ⟨cur, st.silenceCount + 1⟩ rest
        else silenceWatchdog ⟨cur, 0⟩ rest

/-!
## Basic lemmas about `stopRecording` and traces
-/

@[simp] theorem stopRecording_ffmpeg (d : Bool) (s : MachineState) :
    (stopRecording d s).1.ffmpeg = none := by
  cases h : s.ffmpeg <;> simp [stopRecording, h]

@[simp] theorem stopRecording_recording (d : Bool) (s : MachineState) :
    (stopRecording d s).1.recording = false := by
  cases h : s.ffmpeg <;> simp [stopRecording, h]

@[simp] theorem stopRecording_remainingTime (d : Bool) (s : MachineState) :
    (stopRecording d s).1.remainingTime = 0 := by
  cases h : s.ffmpeg <;> simp [stopRecording, h]

@[simp] theorem stopRecording_totalDuration (d : Bool) (s : MachineState) :
    (stopRecording d s).1.totalDuration = 0 := by
  cases h : s.ffmpeg <;> simp [stopRecording, h]

@[simp] theorem stopRecording_currentStation (d : Bool) (s : MachineState) :
    (stopRecording d s).1.currentStation = s.currentStation := by
  cases h : s.ffmpeg <;> simp [stopRecording, h]

@[simp] theorem stopRecording_currentFileName (d : Bool) (s : MachineState) :
    (stopRecording d s).1.currentFileName = s.currentFileName := by
  cases h : s.ffmpeg <;> simp [stopRecording, h]

@[simp] theorem stopRecording_lastSong (d : Bool) (s : MachineState) :
    (stopRecording d s).1.lastSong = s.lastSong := by
  cases h : s.ffmpeg <;> simp [stopRecording, h]

@[simp] theorem stopRecording_nextPid (d : Bool) (s : MachineState) :
    (stopRecording d s).1.nextPid = s.nextPid := by
  cases h : s.ffmpeg <;> simp [stopRecording, h]

theorem stopRecording_of_ffmpeg_none (d : Bool) (s : MachineState)
    (h : s.ffmpeg = none) :
    stopRecording d s =
      ({ s with recording := false, remainingTime := 0, totalDuration := 0 }, []) := by
  simp [stopRecording, h]

theorem removeFile_mem_stopRecording (d : Bool) (s : MachineState) (f : String) :
    Action.removeFile f ∈ (stopRecording d s).2 ↔
      (s.ffmpeg.isSome = true ∧ d = true ∧ s.currentFileName ≠ "" ∧
        f = s.currentFileName) := by
  cases h : s.ffmpeg with
  | none => simp [stopRecording, h]
  | some pid =>
    simp only [stopRecording, h, Option.isSome_some]
    split <;> simp_all

theorem spawn_not_mem_stopRecording (d : Bool) (s : MachineState)
    (f : String) (p : Nat) :
    Action.spawnEncoder f p ∉ (stopRecording d s).2 := by
  cases h : s.ffmpeg with
  | none => simp [stopRecording, h]
  | some pid =>
    simp only [stopRecording, h]
    split <;> simp

theorem stopped_mem_stopRecording (d : Bool) (s : MachineState) (pid : Nat)
    (h : s.ffmpeg = some pid) :
    Action.stopped pid ∈ (stopRecording d s).2 := by
  simp only [stopRecording, h]
  split <;> simp

theorem traceActive_append (xs ys : List Action) (a : Bool) :
    traceActive a (xs ++ ys) =
      (traceActive a xs).bind fun b => traceActive b ys := by
  induction xs generalizing a with
  | nil => simp [traceActive]
  | cons x xs ih =>
    simp only [List.cons_append, traceActive]
    cases actGuard a x <;> simp [ih]

theorem traceActive_stopRecording (d : Bool) (s : MachineState) :
    traceActive s.ffmpeg.isSome (stopRecording d s).2 = some false := by
  cases h : s.ffmpeg with
  | none => simp [stopRecording, h, traceActive]
  | some pid =>
    simp only [stopRecording, h, Option.isSome_some]
    split <;> simp [traceActive, actGuard]

theorem traceActive_step (cfg : Config) (s : MachineState) (e : Event) :
    traceActive s.ffmpeg.isSome (step cfg s e).2 =
      some (step cfg s e).1.ffmpeg.isSome := by
  cases e with
  | trackAnnounced t a al =>
    simp only [step]
    split
    · simp [traceActive_append, traceActive_stopRecording, traceActive, actGuard]
    · simp [traceActive]
  | stationChanged n =>
    simp only [step]
    split
    · simp [traceActive_append, traceActive_stopRecording, traceActive, actGuard]
    · simp [traceActive]
  | progressTick r t =>
    simp only [step]
    split
    · simpa using traceActive_stopRecording false
        { s with remainingTime := r, totalDuration := t }
    · simp [traceActive]
  | playbackInterrupted =>
    simp only [step]
    simpa using traceActive_stopRecording true s

theorem traceActive_run (cfg : Config) (es : List Event) (s : MachineState) :
    traceActive s.ffmpeg.isSome (run cfg s es).2 =
      some (run cfg s es).1.ffmpeg.isSome := by
  induction es generalizing s with
  | nil => simp [run, traceActive]
  | cons e es ih =>
    simp only [run, traceActive_append, traceActive_step, Option.bind_some]
    exact ih _

/-- C1: at most one recording session is active at any time: in the action
trace of any classified-event sequence processed by the session state machine
from the initial state, an encoder start is only ever issued while no session
is active, i.e. only after the completed stop (`Action.stopped`: process
signalled, killed, reaped or abandoned after the bounded wait, handle
cleared) of any previous session, so a second start never happens while a
prior session is still active or its stop not yet completed. -/
theorem c1_at_most_one_session (cfg : Config) (es : List Event) :
    checkAtMostOne (run cfg initState es).2 = true := by
  have h := traceActive_run cfg es initState
  have hinit : initState.ffmpeg.isSome = false := rfl
  rw [hinit] at h
  simp [checkAtMostOne, h]

/-!
## Further helper lemmas
-/

/-- Number of encoder starts in a trace. -/
def countSpawns (l : List Action) : Nat :=
  l.countP fun x =>
    match x with
    | Action.spawnEncoder _ _ => true
    | _ => false

theorem countSpawns_append (xs ys : List Action) :
    countSpawns (xs ++ ys) = countSpawns xs + countSpawns ys :=
  List.countP_append _ _ _

theorem countSpawns_stopRecording (d : Bool) (s : MachineState) :
    countSpawns (stopRecording d s).2 = 0 := by
  cases h : s.ffmpeg with
  | none => simp [stopRecording, h, countSpawns]
  | some pid =>
    simp only [stopRecording, h]
    split <;> rfl

theorem countSpawns_step_track (cfg : Config) (s : MachineState)
    (t a al : String) (hnew : songId t a ≠ s.lastSong) :
    countSpawns (step cfg s (Event.trackAnnounced t a al)).2 = 1 := by
  simp only [step]
  rw [if_pos hnew, countSpawns_append, countSpawns_stopRecording]
  rfl

/-- A non-track event never issues an encoder start. -/
theorem step_no_spawn_of_not_track (cfg : Config) (s : MachineState)
    (e : Event) (he : ∀ t a al, e ≠ Event.trackAnnounced t a al)
    (f : String) (p : Nat) :
    Action.spawnEncoder f p ∉ (step cfg s e).2 := by
  cases e with
  | trackAnnounced t a al => exact absurd rfl (he t a al)
  | stationChanged n =>
    simp only [step]
    split
    · simp [spawn_not_mem_stopRecording]
    · simp
  | progressTick r t =>
    simp only [step]
    split
    · exact spawn_not_mem_stopRecording _ _ _ _
    · simp
  | playbackInterrupted =>
    simp only [step]
    exact spawn_not_mem_stopRecording _ _ _ _

/-- A non-track event never sets the recording flag. -/
theorem step_recording_false (cfg : Config) (s : MachineState) (e : Event)
    (hs : s.recording = false)
    (he : ∀ t a al, e ≠ Event.trackAnnounced t a al) :
    (step cfg s e).1.recording = false := by
  cases e with
  | trackAnnounced t a al => exact absurd rfl (he t a al)
  | stationChanged n =>
    simp only [step]
    split
    · simp
    · exact hs
  | progressTick r t =>
    simp only [step]
    split
    · simp
    · exact hs
  | playbackInterrupted =>
    simp only [step]
    simp

/-- A `TrackAnnounced` event with a fresh identity always issues an encoder
start. -/
theorem spawn_mem_step_track (cfg : Config) (s : MachineState)
    (t a al : String) (hnew : songId t a ≠ s.lastSong) :
    ∃ f p, Action.spawnEncoder f p ∈
      (step cfg s (Event.trackAnnounced t a al)).2 := by
  simp only [step]
  rw [if_pos hnew]
  exact ⟨_, _, List.mem_append_right _ (List.mem_singleton.2 rfl)⟩

/-- The composite identity `title ++ " by " ++ artist` is never empty. -/
theorem songId_ne_empty (t a : String) : songId t a ≠ "" := by
  intro h
  have hlen : (songId t a).length = 0 := by rw [h]; rfl
  have h4 : (" by " : String).length = 4 := rfl
  simp [songId, String.length_append, h4] at hlen

/-!
## Claims C2-C6
-/

/-- C2: while a recording is active (flag set, encoder handle and a file name
present), a `TrackAnnounced` event for a different composite identity deletes
the previous session's output file exactly when progress data is available
(`totalDuration > 0`) and the remaining time is above `timeThreshold`;
otherwise (no progress data, or remaining at or below the threshold) the
file is kept. -/
theorem c2_skip_discard_iff (cfg : Config) (s : MachineState)
    (t a al : String) (pid : Nat)
    (hrec : s.recording = true) (hff : s.ffmpeg = some pid)
    (hfile : s.currentFileName ≠ "") (hnew : songId t a ≠ s.lastSong) :
    (Action.removeFile s.currentFileName ∈
        (step cfg s (Event.trackAnnounced t a al)).2) ↔
      (0 < s.totalDuration ∧ timeThreshold < s.remainingTime) := by
  simp only [step]
  rw [if_pos hnew]
  simp [removeFile_mem_stopRecording, hff, hrec, hfile]

/-- C3: a `ProgressTick` with remaining = 0 (the only way Go's
`remaining <= 0` holds, since `parseTime` yields nonnegative durations) while
a recording is active stops the session (handle cleared, stop completed)
without deleting the output file and clears the recording flag; afterwards
no event other than a `TrackAnnounced` ever sets the recording flag or
issues an encoder start. -/
theorem c3_natural_finish_keeps (cfg : Config) (s : MachineState)
    (total : Nat) (pid : Nat)
    (hrec : s.recording = true) (hff : s.ffmpeg = some pid) :
    ((step cfg s (Event.progressTick 0 total)).1.recording = false ∧
      (step cfg s (Event.progressTick 0 total)).1.ffmpeg = none ∧
      Action.stopped pid ∈ (step cfg s (Event.progressTick 0 total)).2 ∧
      ∀ f, Action.removeFile f ∉ (step cfg s (Event.progressTick 0 total)).2) ∧
    ∀ e : Event, (∀ t a al, e ≠ Event.trackAnnounced t a al) →
      (step cfg (step cfg s (Event.progressTick 0 total)).1 e).1.recording
          = false ∧
      ∀ f p, Action.spawnEncoder f p ∉
        (step cfg (step cfg s (Event.progressTick 0 total)).1 e).2 := by
  have hstep : step cfg s (Event.progressTick 0 total) =
      stopRecording false { s with remainingTime := 0, totalDuration := total } := by
    simp only [step]
    rw [if_pos]
    exact ⟨trivial, hrec⟩
  refine ⟨?_, ?_⟩
  · rw [hstep]
    refine ⟨stopRecording_recording _ _, stopRecording_ffmpeg _ _,
      stopped_mem_stopRecording _ _ pid hff, ?_⟩
    intro f hmem
    rw [removeFile_mem_stopRecording] at hmem
    exact absurd hmem.2.1 (by simp)
  · intro e he
    refine ⟨step_recording_false cfg _ e ?_ he,
      fun f p => step_no_spawn_of_not_track cfg _ e he f p⟩
    rw [hstep]
    exact stopRecording_recording _ _

/-- C4: a `PlaybackInterrupted` event while a recording is active always
stops the session and deletes the in-progress output file (no condition on
the progress snapshot), and clears the duplicate-suppression memory
(`lastSong := ""`); consequently a later re-announcement of any track —
in particular the same one — takes the fresh-start branch and issues an
encoder start instead of being suppressed as a duplicate. -/
theorem c4_interrupt_discards (cfg : Config) (s : MachineState) (pid : Nat)
    (hff : s.ffmpeg = some pid) (hfile : s.currentFileName ≠ "") :
    Action.removeFile s.currentFileName ∈
        (step cfg s Event.playbackInterrupted).2 ∧
    (step cfg s Event.playbackInterrupted).1.recording = false ∧
    (step cfg s Event.playbackInterrupted).1.ffmpeg = none ∧
    (step cfg s Event.playbackInterrupted).1.lastSong = "" ∧
    ∀ t a al, ∃ f p, Action.spawnEncoder f p ∈
      (step cfg (step cfg s Event.playbackInterrupted).1
        (Event.trackAnnounced t a al)).2 := by
  refine ⟨?_, ?_, ?_, ?_, ?_⟩
  · simp only [step]
    rw [removeFile_mem_stopRecording]
    refine ⟨by simp [hff], rfl, hfile, rfl⟩
  · simp only [step]
    simp
  · simp only [step]
    simp
  · simp only [step]
  · intro t a al
    have hls : (step cfg s Event.playbackInterrupted).1.lastSong = "" := by
      simp only [step]
    exact spawn_mem_step_track cfg _ t a al
      (by rw [hls]; exact songId_ne_empty t a)

/-- C5: duplicate suppression: two consecutive `TrackAnnounced` events with
the same composite identity trigger exactly one encoder start; the second
announcement leaves the whole machine state unchanged and performs no
action at all. -/
theorem c5_duplicate_suppression (cfg : Config) (s : MachineState)
    (t a al : String) (hnew : songId t a ≠ s.lastSong) :
    (step cfg (step cfg s (Event.trackAnnounced t a al)).1
        (Event.trackAnnounced t a al) =
      ((step cfg s (Event.trackAnnounced t a al)).1, [])) ∧
    countSpawns ((step cfg s (Event.trackAnnounced t a al)).2 ++
      (step cfg (step cfg s (Event.trackAnnounced t a al)).1
        (Event.trackAnnounced t a al)).2) = 1 := by
  have hls : (step cfg s (Event.trackAnnounced t a al)).1.lastSong
      = songId t a := by
    simp only [step]
    rw [if_pos hnew]
  have h2 : step cfg (step cfg s (Event.trackAnnounced t a al)).1
      (Event.trackAnnounced t a al) =
      ((step cfg s (Event.trackAnnounced t a al)).1, []) := by
    simp only [step]
    rw [if_neg fun hne => hne hls.symm]
  refine ⟨h2, ?_⟩
  rw [h2, List.append_nil, countSpawns_step_track cfg s t a al hnew]

/-- Concrete configuration for the concrete-instance theorems. -/
def cfg0 : Config := ⟨"/music", "2025"⟩

/-- A concrete mid-recording state. -/
def sRec : MachineState :=
  { recording := true, ffmpeg := some 1, currentStation := "A",
    currentFileName := "/music/A/f.mp3", remainingTime := 30,
    totalDuration := 180, lastSong := "Old by Older", nextPid := 2 }

/-- A concrete idle state carrying a stale progress snapshot (reachable: a
countdown line is parsed and stored even while no recording is active). -/
def sIdle : MachineState :=
  { recording := false, ffmpeg := none, currentStation := "",
    currentFileName := "", remainingTime := 5, totalDuration := 180,
    lastSong := "", nextPid := 1 }

/-- Witness for C2 at a concrete recording state. -/
theorem c2_skip_discard_iff_witness :
    (Action.removeFile sRec.currentFileName ∈
        (step cfg0 sRec (Event.trackAnnounced "New" "Artist" "Album")).2) ↔
      (0 < sRec.totalDuration ∧ timeThreshold < sRec.remainingTime) :=
  c2_skip_discard_iff cfg0 sRec "New" "Artist" "Album" 1
    (by decide) (by decide) (by decide) (by decide)

/-- Witness for C3 at a concrete recording state. -/
theorem c3_natural_finish_keeps_witness :
    ((step cfg0 sRec (Event.progressTick 0 180)).1.recording = false ∧
      (step cfg0 sRec (Event.progressTick 0 180)).1.ffmpeg = none ∧
      Action.stopped 1 ∈ (step cfg0 sRec (Event.progressTick 0 180)).2 ∧
      ∀ f, Action.removeFile f ∉ (step cfg0 sRec (Event.progressTick 0 180)).2) ∧
    ∀ e : Event, (∀ t a al, e ≠ Event.trackAnnounced t a al) →
      (step cfg0 (step cfg0 sRec (Event.progressTick 0 180)).1 e).1.recording
          = false ∧
      ∀ f p, Action.spawnEncoder f p ∉
        (step cfg0 (step cfg0 sRec (Event.progressTick 0 180)).1 e).2 :=
  c3_natural_finish_keeps cfg0 sRec 180 1 (by decide) (by decide)

/-- Witness for C4 at a concrete recording state. -/
theorem c4_interrupt_discards_witness :
    Action.removeFile sRec.currentFileName ∈
        (step cfg0 sRec Event.playbackInterrupted).2 ∧
    (step cfg0 sRec Event.playbackInterrupted).1.recording = false ∧
    (step cfg0 sRec Event.playbackInterrupted).1.ffmpeg = none ∧
    (step cfg0 sRec Event.playbackInterrupted).1.lastSong = "" ∧
    ∀ t a al, ∃ f p, Action.spawnEncoder f p ∈
      (step cfg0 (step cfg0 sRec Event.playbackInterrupted).1
        (Event.trackAnnounced t a al)).2 :=
  c4_interrupt_discards cfg0 sRec 1 (by decide) (by decide)

/-- Witness for C5 at a concrete state. -/
theorem c5_duplicate_suppression_witness :
    (step cfg0 (step cfg0 sRec (Event.trackAnnounced "X" "Y" "Z")).1
        (Event.trackAnnounced "X" "Y" "Z") =
      ((step cfg0 sRec (Event.trackAnnounced "X" "Y" "Z")).1, [])) ∧
    countSpawns ((step cfg0 sRec (Event.trackAnnounced "X" "Y" "Z")).2 ++
      (step cfg0 (step cfg0 sRec (Event.trackAnnounced "X" "Y" "Z")).1
        (Event.trackAnnounced "X" "Y" "Z")).2) = 1 :=
  c5_duplicate_suppression cfg0 sRec "X" "Y" "Z" (by decide)

/-- Counterexample to C6: the idle state `sIdle` (reachable from the initial
state by a single countdown line parsed while no recording is active) has no
encoder handle, yet `stopRecording` is not a no-op on it: it zeroes the
progress snapshot. -/
theorem c6_counterexample :
    (run cfg0 initState [Event.progressTick 5 180]).1 = sIdle ∧
    sIdle.ffmpeg = none ∧
    (stopRecording true sIdle).1 ≠ sIdle := by
  decide

/-- C6 as amended: calling `stopRecording` with no active encoder handle
performs no external action and leaves the handle, file name, station and
duplicate-suppression memory unchanged, but still clears the recording flag
and resets the progress snapshot to zero (so it is not a full no-op);
`stopRecording` is idempotent in the sense that a second consecutive call
leaves the state of the first call unchanged and performs no action. -/
theorem c6_amended_stop_idle (d d2 : Bool) (s : MachineState) :
    (s.ffmpeg = none →
      (stopRecording d s).1 = { s with recording := false, remainingTime := 0, totalDuration := 0 } ∧
      (stopRecording d s).2 = []) ∧
    (stopRecording d2 (stopRecording d s).1).1 = (stopRecording d s).1 ∧
    (stopRecording d2 (stopRecording d s).1).2 = [] := by
  refine ⟨fun h => ?_, ?_, ?_⟩
  · rw [stopRecording_of_ffmpeg_none d s h]
    exact ⟨rfl, rfl⟩
  · have hrec := stopRecording_recording d s
    have hrem := stopRecording_remainingTime d s
    have htot := stopRecording_totalDuration d s
    rw [stopRecording_of_ffmpeg_none d2 _ (stopRecording_ffmpeg d s)]
    generalize hx : (stopRecording d s).1 = x at hrec hrem htot ⊢
    cases x with
    | mk rec ff st fn rem tot ls np =>
      simp only at hrec hrem htot
      simp [hrec, hrem, htot]
  · rw [stopRecording_of_ffmpeg_none d2 _ (stopRecording_ffmpeg d s)]

/-- Witness for the amended C6 at a concrete idle state. -/
theorem c6_amended_stop_idle_witness :
    ((stopRecording true sIdle).1 = { sIdle with recording := false, remainingTime := 0, totalDuration := 0 } ∧
      (stopRecording true sIdle).2 = []) ∧
    (stopRecording false (stopRecording true sIdle).1).1
        = (stopRecording true sIdle).1 ∧
    (stopRecording false (stopRecording true sIdle).1).2 = [] := by
  have h := c6_amended_stop_idle true false sIdle
  exact ⟨h.1 rfl, h.2.1, h.2.2⟩

/-!
## Claim C7: the stall watchdog
-/

/-- Safety half of C7: whenever the watchdog stops the session, it does so
at a sample taken while the session is live, past the grace period, with a
stat-ed size above the minimum stall size. -/
theorem silenceWatchdog_safety (samples : List WatchSample) :
    ∀ st smp, silenceWatchdog st samples = some smp →
      smp ∈ samples ∧ smp.live = true ∧ smp.pastGrace = true ∧
      ∃ cur, smp.statSize = some cur ∧ minStallSize < cur := by
  induction samples with
  | nil => intro st smp h; simp [silenceWatchdog] at h
  | cons x rest ih =>
    intro st smp h
    rw [silenceWatchdog] at h
    split at h
    · simp at h
    · next hlive =>
      split at h
      · obtain ⟨hm, hrest⟩ := ih st smp h
        exact ⟨List.mem_cons_of_mem _ hm, hrest⟩
      · next hgrace =>
        split at h
        · obtain ⟨hm, hrest⟩ := ih st smp h
          exact ⟨List.mem_cons_of_mem _ hm, hrest⟩
        · next cur hstat =>
          split at h
          · next hcond =>
            split at h
            · obtain ⟨rfl⟩ := Option.some_inj.1 h
              refine ⟨List.mem_cons_self _ _, ?_, ?_, cur, hstat, hcond.2⟩
              · simpa using hlive
              · simpa using hgrace
            · obtain ⟨hm, hrest⟩ := ih _ smp h
              exact ⟨List.mem_cons_of_mem _ hm, hrest⟩
          · obtain ⟨hm, hrest⟩ := ih _ smp h
            exact ⟨List.mem_cons_of_mem _ hm, hrest⟩

/-- Liveness half of C7: two consecutive live, past-grace samples that both
observe the previously recorded size unchanged and above the minimum stall
size make the watchdog stop the session at or before the second of them. -/
theorem silenceWatchdog_fires (st : WatchState) (s1 s2 : WatchSample)
    (rest : List WatchSample) (cur : Nat)
    (h1l : s1.live = true) (h1g : s1.pastGrace = true)
    (h1s : s1.statSize = some cur)
    (h2l : s2.live = true) (h2g : s2.pastGrace = true)
    (h2s : s2.statSize = some cur)
    (hlast : st.lastSize = cur) (hbig : minStallSize < cur) :
    (silenceWatchdog st (s1 :: s2 :: rest)).isSome = true := by
  rw [silenceWatchdog]
  rw [if_neg (by simp [h1l]), if_neg (by simp [h1g]), h1s]
  simp only []
  rw [if_pos ⟨hlast.symm, hbig⟩]
  by_cases hc : 2 ≤ st.silenceCount + 1
  · rw [if_pos hc]
    rfl
  · rw [if_neg hc, silenceWatchdog]
    rw [if_neg (by simp [h2l]), if_neg (by simp [h2g]), h2s]
    simp only []
    rw [if_pos ⟨by trivial, hbig⟩, if_pos (by omega)]
    rfl

/-- C7: the stall watchdog stops the session (with deletion) iff justified:
(a) any stop it issues happens at a sample taken while the session is still
live and past the `minRecordTime` grace period, at which the output file's
stat-ed size exceeds the minimum non-trivial size (`1024*50` bytes) — so no
stall stop occurs before the grace period or below the minimum size — and
(b) whenever two consecutive such samples observe the file size unchanged
(equal to the previously recorded size) above the minimum, the watchdog does
stop the session. -/
theorem c7_stall_watchdog :
    (∀ st samples smp, silenceWatchdog st samples = some smp →
      smp ∈ samples ∧ smp.live = true ∧ smp.pastGrace = true ∧
      ∃ cur, smp.statSize = some cur ∧ minStallSize < cur) ∧
    (∀ st s1 s2 rest cur,
      s1.live = true → s1.pastGrace = true → s1.statSize = some cur →
      s2.live = true → s2.pastGrace = true → s2.statSize = some cur →
      st.lastSize = cur → minStallSize < cur →
      (silenceWatchdog st (s1 :: s2 :: rest)).isSome = true) :=
  ⟨fun st samples smp h => silenceWatchdog_safety samples st smp h,
   fun st s1 s2 rest cur h1l h1g h1s h2l h2g h2s hlast hbig =>
     silenceWatchdog_fires st s1 s2 rest cur h1l h1g h1s h2l h2g h2s hlast hbig⟩

/-- A concrete watchdog sample: live session, past the grace period, file
size 60000 bytes. -/
def wStall : WatchSample := ⟨true, true, some 60000⟩

/-- Witness for C7 at concrete samples. -/
theorem c7_stall_watchdog_witness :
    (wStall ∈ [wStall, wStall, wStall] ∧ wStall.live = true ∧
      wStall.pastGrace = true ∧
      ∃ cur, wStall.statSize = some cur ∧ minStallSize < cur) ∧
    (silenceWatchdog ⟨60000, 0⟩ [wStall, wStall]).isSome = true :=
  ⟨c7_stall_watchdog.1 ⟨0, 0⟩ [wStall, wStall, wStall] wStall (by decide),
   c7_stall_watchdog.2 ⟨60000, 0⟩ wStall wStall [] 60000 (by decide)
     (by decide) (by decide) (by decide) (by decide) (by decide)
     (by decide) (by decide)⟩

/-!
## Claim C8: the destination path
-/

/-- Sanitization of a string with nonempty character data is nonempty. -/
theorem sanitizeFileName_ne_empty_of_data_ne (s : String) (h : s.data ≠ []) :
    sanitizeFileName s ≠ "" := by
  intro he
  have hd : (sanitizeFileName s).data = [] := by rw [he]
  simp [sanitizeFileName] at hd
  exact h hd

theorem append_slash_ne_empty (b c : String) : b ++ "/" ++ c ≠ "" := by
  intro h
  have hd : (b ++ "/" ++ c).data = [] := by rw [h]
  have hs : ("/" : String).data = ['/'] := rfl
  simp [String.data_append, hs] at hd

theorem joinPath_three (a b c : String)
    (ha : a ≠ "") (hb : b ≠ "") (hc : c ≠ "") :
    joinPath [a, b, c] = a ++ "/" ++ b ++ "/" ++ c := by
  have h0 : joinPath [] = "" := rfl
  have h1 : joinPath [c] = c := by
    rw [joinPath, if_neg hc, h0, if_pos rfl]
  have h2 : joinPath [b, c] = b ++ "/" ++ c := by
    rw [joinPath, h1, if_neg hb, if_neg hc]
  rw [joinPath, h2, if_neg ha, if_neg (append_slash_ne_empty b c)]
  simp [String.append_assoc]

/-- A station change leaves the current station equal to the sanitized new
name (either by updating it or because it already was that). -/
theorem step_station_currentStation (cfg : Config) (s : MachineState)
    (name : String) :
    (step cfg s (Event.stationChanged name)).1.currentStation
      = sanitizeFileName name := by
  simp only [step]
  split
  · simp
  · next h => exact (not_ne_iff.1 h).symm

/-- A station change does not touch the duplicate-suppression memory. -/
theorem step_station_lastSong (cfg : Config) (s : MachineState)
    (name : String) :
    (step cfg s (Event.stationChanged name)).1.lastSong = s.lastSong := by
  simp only [step]
  split
  · simp
  · rfl

/-- The output file name computed for a fresh track when a station is set. -/
theorem step_track_fileName (cfg : Config) (s : MachineState)
    (t a al : String) (hnew : songId t a ≠ s.lastSong)
    (hst : s.currentStation ≠ "") :
    (step cfg s (Event.trackAnnounced t a al)).1.currentFileName =
      joinPath [cfg.saveDir, s.currentStation,
        sanitizeFileName (t ++ " - " ++ a ++ " - " ++ al ++ " (" ++ cfg.year ++ ").mp3")] := by
  simp only [step]
  rw [if_pos hnew]
  simp [hst]

/-- The fresh track's encoder start carries exactly the computed file name. -/
theorem step_track_spawn_name (cfg : Config) (s : MachineState)
    (t a al : String) (hnew : songId t a ≠ s.lastSong) :
    ∃ p, Action.spawnEncoder
        ((step cfg s (Event.trackAnnounced t a al)).1.currentFileName) p
      ∈ (step cfg s (Event.trackAnnounced t a al)).2 := by
  simp only [step]
  rw [if_pos hnew]
  exact ⟨_, List.mem_append_right _ (List.mem_singleton.2 rfl)⟩

/-- Counterexample to C8: after `StationChanged "A"` and
`TrackAnnounced("Song1","Artist1")` (album `"Album1"`, year `"2025"`) the
recording goes to `"/music/A/Song1 - Artist1 - Album1 (2025).mp3"`, not to
`"/music/A/Song1 - Artist1.mp3"`: the file stem also embeds the album and
the year.  Moreover `sanitizeFileName` does not trim whitespace. -/
theorem c8_counterexample :
    (run cfg0 initState [Event.stationChanged "A",
        Event.trackAnnounced "Song1" "Artist1" "Album1"]).1.currentFileName
      = "/music/A/Song1 - Artist1 - Album1 (2025).mp3" ∧
    (run cfg0 initState [Event.stationChanged "A",
        Event.trackAnnounced "Song1" "Artist1" "Album1"]).1.currentFileName
      ≠ "/music/A/Song1 - Artist1.mp3" ∧
    sanitizeFileName " x " = " x " := by
  decide

/-- C8 as amended: for every started recording after a station change, the
destination path is
`<save-dir>/<sanitized station>/<sanitized "title - artist - album (year)">.mp3`,
where sanitization replaces each character of `<>:"/\|?*` by an underscore
and does not trim whitespace; the encoder start action carries exactly this
path. -/
theorem c8_amended_path (cfg : Config) (s : MachineState)
    (name t a al : String)
    (hsave : cfg.saveDir ≠ "") (hstation : sanitizeFileName name ≠ "")
    (hnew : songId t a ≠ s.lastSong) :
    ((step cfg (step cfg s (Event.stationChanged name)).1
        (Event.trackAnnounced t a al)).1.currentFileName
      = cfg.saveDir ++ "/" ++ sanitizeFileName name ++ "/" ++
        sanitizeFileName (t ++ " - " ++ a ++ " - " ++ al ++ " (" ++ cfg.year ++ ").mp3")) ∧
    ∃ p, Action.spawnEncoder
        ((step cfg (step cfg s (Event.stationChanged name)).1
          (Event.trackAnnounced t a al)).1.currentFileName) p
      ∈ (step cfg (step cfg s (Event.stationChanged name)).1
          (Event.trackAnnounced t a al)).2 := by
  have hls : songId t a ≠ (step cfg s (Event.stationChanged name)).1.lastSong := by
    rw [step_station_lastSong]
    exact hnew
  constructor
  · rw [step_track_fileName cfg _ t a al hls
      (by rw [step_station_currentStation]; exact hstation)]
    rw [step_station_currentStation]
    refine joinPath_three _ _ _ hsave hstation
      (sanitizeFileName_ne_empty_of_data_ne _ ?_)
    have htail : ((").mp3" : String)).data = [')', '.', 'm', 'p', '3'] := rfl
    simp [String.data_append, htail]
  · exact step_track_spawn_name cfg _ t a al hls

/-- Witness for the amended C8 at concrete inputs. -/
theorem c8_amended_path_witness :
    ((step cfg0 ((step cfg0 initState (Event.stationChanged "A")).1)
        (Event.trackAnnounced "Song1" "Artist1" "Album1")).1.currentFileName
      = cfg0.saveDir ++ "/" ++ sanitizeFileName "A" ++ "/" ++
        sanitizeFileName ("Song1" ++ " - " ++ "Artist1" ++ " - " ++ "Album1" ++
          " (" ++ cfg0.year ++ ").mp3")) ∧
    ∃ p, Action.spawnEncoder
        ((step cfg0 ((step cfg0 initState (Event.stationChanged "A")).1)
          (Event.trackAnnounced "Song1" "Artist1" "Album1")).1.currentFileName) p
      ∈ (step cfg0 ((step cfg0 initState (Event.stationChanged "A")).1)
          (Event.trackAnnounced "Song1" "Artist1" "Album1")).2 :=
  c8_amended_path cfg0 initState "A" "Song1" "Artist1" "Album1"
    (by decide) (by decide) (by decide)

/-!
## Claim C9: the countdown parse
-/

/-- A well-formed submatch field: a nonempty digit run. -/
def goodField (d : List Char) : Prop := d ≠ [] ∧ d.all Char.isDigit = true

/-- All captured fields of a countdown match are nonempty digit runs. -/
def goodGroups (g : CountdownGroups) : Prop :=
  (∀ h, g.m1 = some h → goodField h) ∧ goodField g.m2 ∧ goodField g.m3 ∧
    goodField g.m4 ∧ goodField g.m5

theorem all_takeWhile_digits (cs : List Char) :
    (cs.takeWhile Char.isDigit).all Char.isDigit = true := by
  induction cs with
  | nil => rfl
  | cons c rest ih =>
    rw [List.takeWhile_cons]
    cases hd : c.isDigit
    · simp
    · simp [hd, ih]

theorem takeDigits1_good {cs d r : List Char}
    (h : takeDigits1 cs = some (d, r)) : goodField d := by
  simp only [takeDigits1] at h
  split at h
  · simp at h
  · next hne =>
    simp only [Option.some_inj, Prod.mk.injEq] at h
    obtain ⟨rfl, -⟩ := h
    exact ⟨hne, all_takeWhile_digits cs⟩

theorem matchFiveFields_good {cs : List Char} {g : CountdownGroups}
    (h : matchFiveFields cs = some g) : goodGroups g := by
  simp only [matchFiveFields] at h
  obtain ⟨⟨d1, r1⟩, h1, h⟩ := Option.bind_eq_some.1 h
  obtain ⟨r2, h2, h⟩ := Option.bind_eq_some.1 h
  obtain ⟨⟨d2, r3⟩, h3, h⟩ := Option.bind_eq_some.1 h
  obtain ⟨r4, h4, h⟩ := Option.bind_eq_some.1 h
  obtain ⟨⟨d3, r5⟩, h5, h⟩ := Option.bind_eq_some.1 h
  obtain ⟨r6, h6, h⟩ := Option.bind_eq_some.1 h
  obtain ⟨⟨d4, r7⟩, h7, h⟩ := Option.bind_eq_some.1 h
  obtain ⟨r8, h8, h⟩ := Option.bind_eq_some.1 h
  obtain ⟨⟨d5, r9⟩, h9, h⟩ := Option.bind_eq_some.1 h
  obtain rfl := Option.some_inj.1 h
  exact ⟨fun x hx => (Option.some_inj.1 hx) ▸ takeDigits1_good h1,
    takeDigits1_good h3, takeDigits1_good h5,
    takeDigits1_good h7, takeDigits1_good h9⟩

theorem matchFourFields_good {cs : List Char} {g : CountdownGroups}
    (h : matchFourFields cs = some g) : goodGroups g := by
  simp only [matchFourFields] at h
  obtain ⟨⟨d1, r1⟩, h1, h⟩ := Option.bind_eq_some.1 h
  obtain ⟨r2, h2, h⟩ := Option.bind_eq_some.1 h
  obtain ⟨⟨d2, r3⟩, h3, h⟩ := Option.bind_eq_some.1 h
  obtain ⟨r4, h4, h⟩ := Option.bind_eq_some.1 h
  obtain ⟨⟨d3, r5⟩, h5, h⟩ := Option.bind_eq_some.1 h
  obtain ⟨r6, h6, h⟩ := Option.bind_eq_some.1 h
  obtain ⟨⟨d4, r7⟩, h7, h⟩ := Option.bind_eq_some.1 h
  obtain rfl := Option.some_inj.1 h
  exact ⟨fun x hx => by simp at hx,
    takeDigits1_good h1, takeDigits1_good h3,
    takeDigits1_good h5, takeDigits1_good h7⟩

theorem matchCountdownAt_good {cs : List Char} {g : CountdownGroups}
    (h : matchCountdownAt cs = some g) : goodGroups g := by
  simp only [matchCountdownAt] at h
  split at h
  · simp at h
  · next r1 h1 =>
    split at h
    · simp at h
    · split at h
      · simp at h
      · next r2 h2 =>
        rcases ho : matchFiveFields r2 with _ | g5
        · rw [ho] at h
          simp only [Option.orElse] at h
          exact matchFourFields_good h
        · rw [ho] at h
          simp only [Option.orElse] at h
          exact (Option.some_inj.1 h) ▸ matchFiveFields_good ho

theorem findCountdown_good {cs : List Char} {g : CountdownGroups}
    (h : findCountdown cs = some g) : goodGroups g := by
  induction cs with
  | nil => simp [findCountdown] at h
  | cons c rest ih =>
    rw [findCountdown] at h
    split at h
    · next g2 hm => exact (Option.some_inj.1 h) ▸ matchCountdownAt_good hm
    · exact ih h

theorem all_digits_no_colon {d : List Char} (h : d.all Char.isDigit = true) :
    ∀ c ∈ d, ¬ c = ':' := by
  intro c hc he
  have hd := List.all_eq_true.1 h c hc
  rw [he] at hd
  exact absurd hd (by decide)

theorem splitOnColon_no_colon {l : List Char} (h : ∀ c ∈ l, ¬ c = ':') :
    splitOnColon l = [l] := by
  induction l with
  | nil => rfl
  | cons c cs ih =>
    rw [splitOnColon, if_neg (h c (List.mem_cons_self c cs)),
      ih fun x hx => h x (List.mem_cons_of_mem _ hx)]

theorem splitOnColon_append {d1 : List Char} (d2 : List Char)
    (h : ∀ c ∈ d1, ¬ c = ':') :
    splitOnColon (d1 ++ ':' :: d2) = d1 :: splitOnColon d2 := by
  induction d1 with
  | nil => simp [splitOnColon]
  | cons c cs ih =>
    rw [List.cons_append, splitOnColon,
      if_neg (h c (List.mem_cons_self c cs)),
      ih fun x hx => h x (List.mem_cons_of_mem _ hx)]

/-- Largest minutes-slot field `time.ParseDuration` accepts:
`(1 << 63) / uint64(time.Minute)` = 153722867. -/
def maxMinutesField : Nat := int64Half / nsPerMinute

/-- Largest seconds-slot field `time.ParseDuration` accepts:
`(1 << 63) / uint64(time.Second)` = 9223372036. -/
def maxSecondsField : Nat := int64Half / nsPerSecond

/-- The duration `parseTime` computes from a minutes-slot field and a
seconds-slot field: `none` when either field overflows its `ParseDuration`
range, otherwise the int64-wrapped nanosecond sum. -/
def fieldDuration (mf sf : List Char) : Option Int :=
  if digitsVal mf ≤ int64Half / nsPerMinute ∧
      digitsVal sf ≤ int64Half / nsPerSecond then
    some (wrapInt64 (digitsVal mf * nsPerMinute + digitsVal sf * nsPerSecond))
  else none

/-- On a nonempty digit field, `parseGoDuration` reduces to its range test. -/
theorem parseGoDuration_good (unit : Nat) {d : List Char} (h : goodField d) :
    parseGoDuration unit d =
      if digitsVal d ≤ int64Half / unit then some (digitsVal d * unit)
      else none := by
  rw [parseGoDuration]
  by_cases hr : digitsVal d ≤ int64Half / unit
  · rw [if_pos ⟨h.1, h.2, hr⟩, if_pos hr]
  · rw [if_neg (fun hc => hr hc.2.2), if_neg hr]

/-- `parseTime` on a string formatted from two nonempty digit runs with a
colon between them equals `fieldDuration` of the two runs. -/
theorem parseTime_two_fields (d1 d2 : List Char)
    (h1 : goodField d1) (h2 : goodField d2) :
    parseTime (String.mk (d1 ++ ':' :: d2)) = fieldDuration d1 d2 := by
  have hd : (String.mk (d1 ++ ':' :: d2)).data = d1 ++ ':' :: d2 := rfl
  rw [parseTime, hd, splitOnColon_append d2 (all_digits_no_colon h1.2),
    splitOnColon_no_colon (all_digits_no_colon h2.2)]
  show (match parseGoDuration nsPerMinute d1, parseGoDuration nsPerSecond d2 with
    | some m, some sec => some (wrapInt64 (m + sec))
    | _, _ => none) = fieldDuration d1 d2
  rw [parseGoDuration_good nsPerMinute h1, parseGoDuration_good nsPerSecond h2,
    fieldDuration]
  by_cases hm : digitsVal d1 ≤ int64Half / nsPerMinute
  · by_cases hs : digitsVal d2 ≤ int64Half / nsPerSecond
    · rw [if_pos hm, if_pos hs, if_pos ⟨hm, hs⟩]
    · rw [if_pos hm, if_neg hs,
        if_neg (show ¬(digitsVal d1 ≤ int64Half / nsPerMinute ∧
          digitsVal d2 ≤ int64Half / nsPerSecond) from fun hc => hs hc.2)]
  · rw [if_neg hm,
      if_neg (show ¬(digitsVal d1 ≤ int64Half / nsPerMinute ∧
        digitsVal d2 ≤ int64Half / nsPerSecond) from fun hc => hm hc.1)]

/-- The remaining-side value the code computes from a countdown match: with
an hour group, `parseTime "<h>:<m>"` — the hour field lands in the minutes
slot and the seconds field is dropped; without one, `parseTime "<m>:<s>"`. -/
def groupRemaining (g : CountdownGroups) : Option Int :=
  match g.m1 with
  | some h => fieldDuration h g.m2
  | none => fieldDuration g.m2 g.m3

/-- The total-side value the code computes: `parseTime` of
`matches[4]:matches[5]`. -/
def groupTotal (g : CountdownGroups) : Option Int :=
  fieldDuration g.m4 g.m5

theorem countdownTick_of_findCountdown {line : String} {g : CountdownGroups}
    (h : findCountdown line.data = some g) :
    countdownTick line =
      match groupRemaining g, groupTotal g with
      | some r, some t => some (r, t)
      | _, _ => none := by
  have hg := findCountdown_good h
  rw [countdownTick, h]
  rcases hm : g.m1 with _ | hours
  · simp only [hm]
    rw [parseTime_two_fields _ _ hg.2.1 hg.2.2.1,
      parseTime_two_fields _ _ hg.2.2.2.1 hg.2.2.2.2]
    simp [groupRemaining, groupTotal, hm]
  · simp only [hm]
    rw [parseTime_two_fields _ _ (hg.1 hours hm) hg.2.1,
      parseTime_two_fields _ _ hg.2.2.2.1 hg.2.2.2.2]
    simp [groupRemaining, groupTotal, hm]

/-- C9 as amended: a `ProgressTick` is produced exactly for chunks with a
countdown match `#\s+-(h:)?m:s/M:S` **whose fields are in
`time.ParseDuration`'s range** (minutes-slot field ≤ `2^63/(60·10^9)` =
153722867, seconds-slot field ≤ `2^63/10^9` = 9223372036) — an overflowing
field makes the parse error and the matching line yields no tick.  For
in-range fields the values are int64 nanoseconds: without an hour group,
remaining = 60·m + s seconds and total = 60·M + S seconds; with an hour
group, remaining = 60·h + m seconds (the hour field is fed to `parseTime`
in the minutes slot and the seconds field is dropped); the total side is
always read as minutes:seconds from its two fields.  The `mins + secs` sum
wraps two's-complement at extreme (regex-reachable) fields, as Go's does. -/
theorem c9_amended_tick_values (line : String) :
    (findCountdown line.data = none → countdownTick line = none) ∧
    ∀ g, findCountdown line.data = some g →
      countdownTick line =
        match groupRemaining g, groupTotal g with
        | some r, some t => some (r, t)
        | _, _ => none := by
  constructor
  · intro h
    rw [countdownTick, h]
  · intro g h
    exact countdownTick_of_findCountdown h

/-- Witness for the amended C9 on a concrete countdown line. -/
theorem c9_amended_tick_values_witness :
    countdownTick "# -1:02/3:04" =
      match groupRemaining ⟨none, ['1'], ['0', '2'], ['3'], ['0', '4']⟩,
            groupTotal ⟨none, ['1'], ['0', '2'], ['3'], ['0', '4']⟩ with
      | some r, some t => some (r, t)
      | _, _ => none :=
  (c9_amended_tick_values "# -1:02/3:04").2
    ⟨none, ['1'], ['0', '2'], ['3'], ['0', '4']⟩ (by decide)

/-- Counterexample to C9, on both counts.  (1) The line `"# -1:02:03/4:05"`
has an hour component in its first field, which denotes 1 h 2 min 3 s =
3723 s, but the produced tick carries remaining = 62 s (the code parses
`"1:02"` — hours as minutes, seconds dropped).  (2) The line
`"# -999999999:00/0:05"` matches the countdown marker, yet no tick is
produced: 999999999 exceeds `ParseDuration`'s minutes range, the parse
errors and the branch `continue`s. -/
theorem c9_counterexample :
    countdownTick "# -1:02:03/4:05" =
        some (62 * (nsPerSecond : Int), 245 * (nsPerSecond : Int)) ∧
    62 * (nsPerSecond : Int) ≠ (1 * 3600 + 2 * 60 + 3) * (nsPerSecond : Int) ∧
    (findCountdown ("# -999999999:00/0:05").data).isSome = true ∧
    countdownTick "# -999999999:00/0:05" = none := by
  decide

/-!
## Claim C10: the progress-snapshot bound
-/

/-- The spec's progress invariant: remaining ≤ total when both are nonzero. -/
def progressInv (s : MachineState) : Prop :=
  s.remainingTime ≠ 0 → s.totalDuration ≠ 0 →
    s.remainingTime ≤ s.totalDuration

/-- A tick event with remaining above total (spec-violating input). -/
def tickLE (e : Event) : Prop :=
  ∀ r t, e = Event.progressTick r t → r ≤ t

theorem progressInv_step (cfg : Config) (s : MachineState) (e : Event)
    (hs : progressInv s) (he : tickLE e) : progressInv (step cfg s e).1 := by
  cases e with
  | trackAnnounced t a al =>
    simp only [step]
    split
    · intro h1 h2
      simp at h1
    · exact hs
  | stationChanged n =>
    simp only [step]
    split
    · intro h1 h2
      simp at h1
    · exact hs
  | progressTick r t =>
    simp only [step]
    split
    · intro h1 h2
      simp at h1
    · intro h1 h2
      exact he r t rfl
  | playbackInterrupted =>
    intro h1 h2
    simp [step] at h1

theorem progressInv_run (cfg : Config) (es : List Event) (s : MachineState)
    (hs : progressInv s) (he : ∀ e ∈ es, tickLE e) :
    progressInv (run cfg s es).1 := by
  induction es generalizing s with
  | nil => exact hs
  | cons e es ih =>
    exact ih _ (progressInv_step cfg s e hs (he e (List.mem_cons_self e es)))
      fun x hx => he x (List.mem_cons_of_mem _ hx)

/-- Counterexample to C10: the controller stores the parsed countdown values
verbatim, so the spec-violating line `"# -5:00/3:00"` — which `countdownTick`
turns into remaining = 300 s and total = 180 s (300·10⁹ and 180·10⁹ ns),
delivered to the machine as `progressTick 300 180` — leaves a state with
both values nonzero and remaining > total. -/
theorem c10_counterexample :
    countdownTick "# -5:00/3:00" =
        some (300 * (nsPerSecond : Int), 180 * (nsPerSecond : Int)) ∧
    (run cfg0 initState [Event.progressTick 300 180]).1.remainingTime = 300 ∧
    (run cfg0 initState [Event.progressTick 300 180]).1.totalDuration = 180 ∧
    ¬ (300 : Nat) ≤ 180 := by
  decide

/-- C10 as amended: provided every progress event carried by the input has
remaining ≤ total (as real countdown displays do), then after every state
update performed by the controller — i.e. after each prefix of the event
sequence — remaining ≤ total holds whenever both stored durations are
nonzero. -/
theorem c10_amended_progress_inv (cfg : Config) (es : List Event) (i : Nat)
    (he : ∀ r t, Event.progressTick r t ∈ es → r ≤ t) :
    (run cfg initState (es.take i)).1.remainingTime ≠ 0 →
    (run cfg initState (es.take i)).1.totalDuration ≠ 0 →
    (run cfg initState (es.take i)).1.remainingTime ≤
      (run cfg initState (es.take i)).1.totalDuration := by
  refine progressInv_run cfg (es.take i) initState (fun h1 h2 => ?_) ?_
  · simp [initState] at h1
  · intro e hx r t hrt
    exact he r t (List.take_subset i es (hrt ▸ hx))

/-- Witness for the amended C10 on a concrete event sequence. -/
theorem c10_amended_progress_inv_witness :
    (run cfg0 initState ([Event.progressTick 100 180].take 1)).1.remainingTime ≤
      (run cfg0 initState ([Event.progressTick 100 180].take 1)).1.totalDuration :=
  c10_amended_progress_inv cfg0 [Event.progressTick 100 180] 1
    (by intro r t h; simp at h; omega) (by decide) (by decide)

end Pianotrap
